import Mathlib

/-!
Verification development for the MarijoAI in-browser neural-network library
(`NeuralNetwork` class: construction, forward inference with and without
caching, backpropagation deltas, the Adam optimizer update, the training
loop's batching / early-stopping / callback control flow, and the
save/load serialization round-trip).

Numbers are modelled as rationals.  The JavaScript `Math` primitives the
library calls (`Math.exp`, `Math.tanh`, `Math.sqrt`, `Math.random`) are
abstracted into a `JsMath` interface; every theorem is parametric in it,
matching the fact that the source treats them as black boxes.
-/

namespace MarijoAI

/-- Abstract interface to the JavaScript Math primitives used by the library
(`Math.exp`, `Math.tanh`, `Math.sqrt`) together with the stream of
`Math.random()` draws consumed, in order, during weight initialization. -/
structure JsMath where
  exp : ℚ → ℚ
  tanh : ℚ → ℚ
  sqrt : ℚ → ℚ
  rand : ℕ → ℚ

/-- One layer descriptor of `config.architecture` (input, hidden or output):
a unit count and an activation name.  Unit counts are integers so that
non-positive counts are representable; a JS `for` loop bounded by a
non-positive count runs zero iterations, which `Int.toNat` mirrors. -/
structure LayerConf where
  units : Int
  activation : String
  deriving DecidableEq

/-- The `config.architecture` object: input layer, hidden layers, output
layer.  By construction it always describes at least two layers. -/
structure Architecture where
  inputLayer : LayerConf
  hiddenLayers : List LayerConf
  outputLayer : LayerConf
  deriving DecidableEq

/-- The `config.trainingConfig` object; only the `loss` field is read by the
library code that the claims concern. -/
structure TrainingConfig where
  loss : String
  deriving DecidableEq

/-- The `config` object passed to the `NeuralNetwork` constructor. -/
structure Config where
  architecture : Architecture
  trainingConfig : TrainingConfig
  deriving DecidableEq

/-- One entry of `this.layers`: `{type, units, activation}`. -/
structure Layer where
  type : String
  units : Int
  activation : String
  deriving DecidableEq

/-- Default used for (unreachable, shape-consistent) out-of-range layer
lookups in the embedding. -/
def defaultLayer : Layer := { type := "", units := 0, activation := "" }

/-- The `NeuralNetwork` instance state: `config`, `layers`, `weights`
(per weight layer, a row per output unit, a column per input unit) and
`biases`.  Optimizer state is threaded separately (see `OptimizerState`). -/
structure Network where
  config : Config
  layers : List Layer
  weights : List (List (List ℚ))
  biases : List (List ℚ)
  deriving DecidableEq

/-- The `layers` array built by `initializeNetwork` (src/unnamed/part_002
lines 16-41): input layer with activation `linear`, the hidden layers, then
the output layer. -/
def builtLayers (arch : Architecture) : List Layer :=
  ({ type := "input", units := arch.inputLayer.units, activation := "linear" } : Layer)
    :: (arch.hiddenLayers.map fun l =>
          ({ type := "hidden", units := l.units, activation := l.activation } : Layer))
    ++ [({ type := "output", units := arch.outputLayer.units
           activation := arch.outputLayer.activation } : Layer)]

/-- Xavier/Glorot weight and bias initialization (lines 43-63): for each
consecutive layer pair, `limit = sqrt(6/(cur.units+next.units))`, each weight
is `(Math.random()*2-1)*limit` (draws consumed row-major, threaded through
the counter argument), each bias is `0`. -/
def initWB (M : JsMath) : List (Layer × Layer) → ℕ → List (List (List ℚ)) × List (List ℚ)
  | [], _ => ([], [])
  | (cur, next) :: rest, ctr =>
    let limit := M.sqrt (6 / ((cur.units : ℚ) + (next.units : ℚ)))
    let rows := next.units.toNat
    let cols := cur.units.toNat
    let w := (List.range rows).map fun j =>
      (List.range cols).map fun k => (M.rand (ctr + j * cols + k) * 2 - 1) * limit
    let b : List ℚ := (List.range rows).map fun _ => 0
    let rec' := initWB M rest (ctr + rows * cols)
    (w :: rec'.1, b :: rec'.2)

/-- The `NeuralNetwork` constructor together with `initializeNetwork`
(lines 7-64).  Note the source performs no validation whatsoever: any
config (including non-positive unit counts) produces a network. -/
def mkNetwork (M : JsMath) (config : Config) : Network :=
  let layers := builtLayers config.architecture
  let wb := initWB M (layers.zip layers.tail) 0
  { config := config, layers := layers, weights := wb.1, biases := wb.2 }

/-- The activation `relu` (line 67). -/
def relu (x : ℚ) : ℚ := max 0 x

/-- The activation `sigmoid` (line 71). -/
def sigmoid (M : JsMath) (x : ℚ) : ℚ := 1 / (1 + M.exp (-x))

/-- The activation `softmax` (lines 79-90): subtract the running maximum,
exponentiate, normalize by the sum.  Empty input is returned unchanged. -/
def softmax (M : JsMath) (x : List ℚ) : List ℚ :=
  match x with
  | [] => []
  | x0 :: xs =>
    let mx := xs.foldl (fun m v => if v > m then v else m) x0
    let ex := (x0 :: xs).map fun v => M.exp (v - mx)
    let s := ex.foldl (fun a b => a + b) 0
    ex.map fun v => v / s

/-- The activation `elu` with its default `alpha = 1.0` (line 96). -/
def elu (M : JsMath) (x : ℚ) : ℚ := if x > 0 then x else 1 * (M.exp x - 1)

/-- The activation `selu` with its default `alpha = 1.67326`,
`scale = 1.0507` (line 100). -/
def selu (M : JsMath) (x : ℚ) : ℚ :=
  (10507 / 10000 : ℚ) * (if x > 0 then x else (167326 / 100000 : ℚ) * (M.exp x - 1))

/-- The activation `swish` (line 104). -/
def swish (M : JsMath) (x : ℚ) : ℚ := x * sigmoid M x

/-- The array branch of `activationDerivative` (lines 109-154): relu,
sigmoid and tanh have real derivatives; every other activation name falls
through to the constant-1 branch. -/
def activationDerivative (M : JsMath) (activation : String) (z : List ℚ) : List ℚ :=
  if activation = "relu" then z.map fun v => if v > 0 then 1 else 0
  else if activation = "sigmoid" then z.map fun v => sigmoid M v * (1 - sigmoid M v)
  else if activation = "tanh" then z.map fun v => 1 - M.tanh v * M.tanh v
  else z.map fun _ => 1

/-- The array branch of `applyActivation` (lines 157-178). -/
def applyActivation (M : JsMath) (x : List ℚ) (activation : String) : List ℚ :=
  if activation = "relu" then x.map relu
  else if activation = "sigmoid" then x.map (sigmoid M)
  else if activation = "tanh" then x.map M.tanh
  else if activation = "softmax" then softmax M x
  else if activation = "linear" then x
  else if activation = "elu" then x.map (elu M)
  else if activation = "selu" then x.map (selu M)
  else if activation = "swish" then x.map (swish M)
  else x

/-- One neuron's pre-activation: `sum = biases[j]; for k < acts.length:
sum += acts[k] * row[k]` (lines 200-205).  The loop bound is the CURRENT
activation vector's length, not the row length: a too-short input simply
uses fewer terms (and a too-long one reads past the row, which in JS
contributes NaN; the embedding's out-of-range default is benign since no
theorem evaluates that case). -/
def dotRow (acts row : List ℚ) (b : ℚ) : ℚ :=
  (List.range acts.length).foldl (fun sum k => sum + acts.getD k 0 * row.getD k 0) b

/-- The pre-activation vector `z` of one weight layer (lines 198-206). -/
def layerZ (acts : List ℚ) (w : List (List ℚ)) (b : List ℚ) : List ℚ :=
  (List.range w.length).map fun j => dotRow acts (w.getD j []) (b.getD j 0)

/-- The per-weight-layer data the forward loops iterate over: weight matrix
`i`, bias vector `i`, and `layers[i+1].activation` (lines 193-196). -/
def netSteps (net : Network) : List (List (List ℚ) × List ℚ × String) :=
  (List.range net.weights.length).map fun i =>
    (net.weights.getD i [], net.biases.getD i [],
      (net.layers.getD (i + 1) defaultLayer).activation)

/-- The forward loop body (lines 193-209): `z = W·a + b`,
`a = applyActivation(z)`, chained over the weight layers. -/
def forwardSteps (M : JsMath) : List (List (List ℚ) × List ℚ × String) → List ℚ → List ℚ
  | [], acts => acts
  | (w, b, act) :: rest, acts => forwardSteps M rest (applyActivation M (layerZ acts w b) act)

/-- The method `forward` (lines 181-212).  The source's only runtime check,
`if (!input || !Array.isArray(input)) throw`, cannot fire for a typed list
input; crucially, the source performs NO input-length validation, so the
function is total on arrays. -/
def forward (M : JsMath) (net : Network) (input : List ℚ) : List ℚ :=
  forwardSteps M (netSteps net) input

/-- The record returned by `forwardWithCache` (line 249). -/
structure ForwardCache where
  output : List ℚ
  layerInputs : List (List ℚ)
  layerZs : List (List ℚ)
  layerActivations : List (List ℚ)
  deriving DecidableEq

/-- The loop of `forwardWithCache` (lines 229-248), returning
`(output, layerInputs pushed after the start, layerZs, layerActivations)`.
The cached `aNext` joins `layerInputs` only when it is not the final
activation, mirroring `if (i < this.weights.length - 1)`. -/
def forwardCacheSteps (M : JsMath) :
    List (List (List ℚ) × List ℚ × String) → List ℚ →
      List ℚ × List (List ℚ) × List (List ℚ) × List (List ℚ)
  | [], acts => (acts, [], [], [])
  | (w, b, act) :: rest, acts =>
    let z := layerZ acts w b
    let aNext := applyActivation M z act
    let r := forwardCacheSteps M rest aNext
    (r.1, (if rest.isEmpty then [] else [aNext]) ++ r.2.1, z :: r.2.2.1, aNext :: r.2.2.2)

/-- The method `forwardWithCache` (lines 215-250). -/
def forwardWithCache (M : JsMath) (net : Network) (input : List ℚ) : ForwardCache :=
  let r := forwardCacheSteps M (netSteps net) input
  { output := r.1
    layerInputs := input :: r.2.1
    layerZs := r.2.2.1
    layerActivations := r.2.2.2 }

/-- Argument shape of `predict` (line 673): a single sample (a vector whose
first element is a number) or a batch (first element an array). -/
inductive PredictArg where
  | single (x : List ℚ)
  | batch (xs : List (List ℚ))
  deriving DecidableEq

/-- Result shape of `predict`. -/
inductive PredictOut where
  | single (y : List ℚ)
  | batch (ys : List (List ℚ))
  deriving DecidableEq

/-- The method `predict` (lines 673-681): dispatches on whether the first
element is itself an array, then runs `forward` once or once per sample. -/
def predict (M : JsMath) (net : Network) : PredictArg → PredictOut
  | .batch xs => .batch (xs.map fun sample => forward M net sample)
  | .single x => .single (forward M net x)

/-- The snapshot produced by `save` (lines 684-691). -/
structure SavedModel where
  config : Config
  weights : List (List (List ℚ))
  biases : List (List ℚ)
  layers : List Layer
  deriving DecidableEq

/-- The method `save` (lines 684-691). -/
def save (net : Network) : SavedModel :=
  { config := net.config
    weights := net.weights
    biases := net.biases
    layers := net.layers }

/-- The static method `load` (lines 694-700): construct a fresh network from
the snapshot's config (consuming fresh random draws), then overwrite its
weights, biases and layers with the snapshot's values. -/
def load (M : JsMath) (modelData : SavedModel) : Network :=
  let network := mkNetwork M modelData.config
  { network with
    weights := modelData.weights
    biases := modelData.biases
    layers := modelData.layers }

/-! ### Theorems -/

/-- C1: Save/load round-trip: for every network (freshly initialized or after
any amount of training, i.e. with arbitrary weight/bias contents) and every
input `x` (single sample or batch, in particular any vector of the input
layer's length), `Network.load(network.save()).predict(x)` equals
`network.predict(x)` exactly: `load` overwrites the freshly constructed
network's weights, biases and layers with the snapshot's values, and
`predict`/`forward` read only those three fields. -/
theorem predict_load_save_roundtrip (M : JsMath) (net : Network) (x : PredictArg) :
    predict M (load M (save net)) x = predict M net x := by
  cases x <;> rfl

/-- Helper: the output component of the caching forward loop coincides with
the plain forward loop. -/
theorem forwardCacheSteps_fst (M : JsMath)
    (steps : List (List (List ℚ) × List ℚ × String)) (acts : List ℚ) :
    (forwardCacheSteps M steps acts).1 = forwardSteps M steps acts := by
  induction steps generalizing acts with
  | nil => rfl
  | cons s rest ih =>
    obtain ⟨w, b, act⟩ := s
    simp only [forwardCacheSteps, forwardSteps]
    exact ih _

/-- C8: For every network and every input vector,
`forwardWithCache(input).output` equals `forward(input)`: the cached forward
pass computes the same final activation vector as the plain forward pass on
the same weights and biases. -/
theorem forwardWithCache_output_eq_forward (M : JsMath) (net : Network) (input : List ℚ) :
    (forwardWithCache M net input).output = forward M net input := by
  simp only [forwardWithCache, forward]
  exact forwardCacheSteps_fst M (netSteps net) input

/-! ### Shape lemmas and the absence of input validation (C5, C6) -/

/-- Helper: `getD` applied to a map over `List.range`. -/
theorem rangeMap_getD {α : Type} (n : ℕ) (f : ℕ → α) (i : ℕ) (d : α) :
    ((List.range n).map f).getD i d = if i < n then f i else d := by
  by_cases h : i < n
  · rw [List.getD_eq_getElem?_getD, List.getElem?_map, List.getElem?_range h]
    simp [h]
  · rw [List.getD_eq_getElem?_getD, List.getElem?_map,
      List.getElem?_eq_none (by simpa using Nat.le_of_not_lt h)]
    simp [h]

/-- Helper: softmax preserves vector length. -/
theorem softmax_length (M : JsMath) (x : List ℚ) : (softmax M x).length = x.length := by
  cases x <;> simp [softmax]

/-- Helper: every branch of `applyActivation` preserves vector length. -/
theorem applyActivation_length (M : JsMath) (x : List ℚ) (act : String) :
    (applyActivation M x act).length = x.length := by
  unfold applyActivation
  split_ifs <;> simp [softmax_length]

/-- Helper: the pre-activation vector has one entry per weight row. -/
theorem layerZ_length (acts : List ℚ) (w : List (List ℚ)) (b : List ℚ) :
    (layerZ acts w b).length = w.length := by
  simp [layerZ]

/-- Helper: the forward loop's result length is the row count of the last
weight matrix it was given. -/
theorem forwardSteps_length (M : JsMath)
    (steps : List (List (List ℚ) × List ℚ × String)) (acts : List ℚ) (h : steps ≠ []) :
    (forwardSteps M steps acts).length =
      (steps.getD (steps.length - 1) ([], [], "")).1.length := by
  induction steps generalizing acts with
  | nil => exact absurd rfl h
  | cons s rest ih =>
    obtain ⟨w, b, act⟩ := s
    cases rest with
    | nil =>
      simp [forwardSteps, applyActivation_length, layerZ_length, List.getD]
    | cons s2 rest2 =>
      have hr := ih (applyActivation M (layerZ acts w b) act) (by simp)
      simp only [forwardSteps] at hr ⊢
      rw [hr]
      simp [List.getD_cons_succ]

/-- C5 amended: the source's `forward` performs NO input-length validation
(its only guard rejects non-array inputs, which a typed list always passes),
so a wrong-length input raises no `ShapeMismatch`: for every network with at
least one weight layer and every input vector of ANY length, `forward`
returns a normal output vector whose length is the final weight matrix's row
count. -/
theorem forward_no_length_check (M : JsMath) (net : Network) (input : List ℚ)
    (h : net.weights ≠ []) :
    (forward M net input).length =
      (net.weights.getD (net.weights.length - 1) []).length := by
  have hw : 0 < net.weights.length := List.length_pos.mpr h
  have hne : netSteps net ≠ [] := by
    have : (netSteps net).length = net.weights.length := by simp [netSteps]
    intro hnil
    rw [hnil] at this
    simp at this
    omega
  have hl := forwardSteps_length M (netSteps net) input hne
  rw [forward, hl]
  have hlen : (netSteps net).length = net.weights.length := by simp [netSteps]
  rw [hlen]
  unfold netSteps
  rw [rangeMap_getD]
  have hlt : net.weights.length - 1 < net.weights.length := by omega
  simp [hlt]

/-- Concrete interpretation of the JS Math primitives used by the closed
counterexamples below (the claims they settle do not depend on the
interpretation). -/
def M0 : JsMath :=
  { exp := fun x => x
    tanh := fun x => x
    sqrt := fun x => x
    rand := fun _ => 0 }

/-- A concrete network whose input layer declares 2 units: one weight layer
`[[2, 3]]` with bias `[1]` and linear activations. -/
def net0 : Network :=
  { config :=
      { architecture :=
          { inputLayer := { units := 2, activation := "linear" }
            hiddenLayers := []
            outputLayer := { units := 1, activation := "linear" } }
        trainingConfig := { loss := "meanSquaredError" } }
    layers := [⟨"input", 2, "linear"⟩, ⟨"output", 1, "linear"⟩]
    weights := [[[2, 3]]]
    biases := [[1]] }

/-- Witness for C5's amended statement at a concrete input: `net0` has one
weight layer and the mismatched input `[5]` yields an output of the final
weight matrix's row count. -/
theorem forward_no_length_check_witness :
    (forward M0 net0 [(5 : ℚ)]).length =
      (net0.weights.getD (net0.weights.length - 1) []).length :=
  forward_no_length_check M0 net0 [(5 : ℚ)] (by decide)

/-- C5 counterexample: the claim asserts that `forward` fails with a
`ShapeMismatch` error on every input whose length differs from the input
layer's unit count.  In fact the source contains no such check: on `net0`
(declared input units = 2) the length-1 input `[5]` is processed to the
normal numeric output `[1 + 5*2] = [11]` — no error is raised. -/
theorem forward_wrong_length_returns_value :
    (net0.layers.getD 0 defaultLayer).units = 2 ∧
    ([(5 : ℚ)]).length = 1 ∧
    forward M0 net0 [(5 : ℚ)] = [11] := by
  refine ⟨rfl, rfl, ?_⟩
  norm_num [forward, netSteps, forwardSteps, layerZ, dotRow, applyActivation, net0, M0,
    defaultLayer, List.range_succ]
  decide

/-- Helper: the initializer produces one weight matrix and one bias vector
per consecutive layer pair. -/
theorem initWB_length (M : JsMath) (ps : List (Layer × Layer)) (ctr : ℕ) :
    (initWB M ps ctr).1.length = ps.length ∧ (initWB M ps ctr).2.length = ps.length := by
  induction ps generalizing ctr with
  | nil => simp [initWB]
  | cons p rest ih =>
    obtain ⟨cur, next⟩ := p
    simp [initWB, ih]

/-- C6 amended: `Network` construction performs no validation at all — for
EVERY config (including non-positive unit counts) it returns a network, with
one layer entry per descriptor (hence always at least 2 layers, since the
config format always has an input and an output layer) and one weight
matrix / bias vector per consecutive layer pair. -/
theorem mkNetwork_no_validation (M : JsMath) (cfg : Config) :
    (mkNetwork M cfg).layers.length = 2 + cfg.architecture.hiddenLayers.length ∧
    2 ≤ (mkNetwork M cfg).layers.length ∧
    (mkNetwork M cfg).weights.length = (mkNetwork M cfg).layers.length - 1 ∧
    (mkNetwork M cfg).biases.length = (mkNetwork M cfg).layers.length - 1 := by
  have hlay : (builtLayers cfg.architecture).length =
      2 + cfg.architecture.hiddenLayers.length := by
    simp [builtLayers]
    omega
  have hzip : ((builtLayers cfg.architecture).zip
      (builtLayers cfg.architecture).tail).length =
      (builtLayers cfg.architecture).length - 1 := by
    rw [List.length_zip, List.length_tail]
    omega
  have hwb := initWB_length M
    ((builtLayers cfg.architecture).zip (builtLayers cfg.architecture).tail) 0
  refine ⟨hlay, ?_, ?_, ?_⟩
  · rw [show (mkNetwork M cfg).layers = builtLayers cfg.architecture from rfl, hlay]
    omega
  · rw [show (mkNetwork M cfg).weights =
      (initWB M ((builtLayers cfg.architecture).zip (builtLayers cfg.architecture).tail) 0).1
      from rfl]
    rw [hwb.1, hzip]
    rfl
  · rw [show (mkNetwork M cfg).biases =
      (initWB M ((builtLayers cfg.architecture).zip (builtLayers cfg.architecture).tail) 0).2
      from rfl]
    rw [hwb.2, hzip]
    rfl

/-- A concrete invalid config per the claim: the input layer has unit count
0 (non-positive). -/
def cfgBad : Config :=
  { architecture :=
      { inputLayer := { units := 0, activation := "linear" }
        hiddenLayers := []
        outputLayer := { units := 1, activation := "sigmoid" } }
    trainingConfig := { loss := "binaryCrossentropy" } }

/-- C6 counterexample: the claim asserts construction fails with
`InvalidConfig` when some layer has a non-positive unit count.  In fact the
constructor contains no validation: on `cfgBad` (input units = 0) it
successfully produces a network (with one empty weight row). -/
theorem mkNetwork_nonpositive_units_returns_network :
    mkNetwork M0 cfgBad =
      { config := cfgBad
        layers := [⟨"input", 0, "linear"⟩, ⟨"output", 1, "sigmoid"⟩]
        weights := [[[]]]
        biases := [[0]] } := by
  decide

/-! ### Backpropagation deltas and per-sample gradients (C2, C10) -/

/-- A training label as the source receives it: a number or an array
(`batchY[j]` in `train`). -/
inductive Label where
  | scalar (y : ℚ)
  | vec (ys : List ℚ)
  deriving DecidableEq

/-- The scalar extraction `Array.isArray(y) ? y[0] : y` (line 528). -/
def labelFirst : Label → ℚ
  | .scalar y => y
  | .vec ys => ys.getD 0 0

/-- The output-layer delta computed per sample inside `train` (lines
516-542): the delta vector for the last weight layer starts as zeros (one
slot per output unit, line 521); if the output activation is `sigmoid` and
either the `train` call's `config.loss` or the network's
`config.trainingConfig.loss` is `binaryCrossentropy` (line 531), the
simplified value `prediction[0] - target[0]` is written into slot 0 ONLY
(line 533); otherwise every slot gets the generic chain rule
`(prediction[ii] - target[ii]) * activationDerivative(z)[ii]`
(lines 536-541). -/
def outputDelta (M : JsMath) (outputActivation cfgLoss tcLoss : String) (numOut : ℕ)
    (prediction zLast : List ℚ) (target : Label) : List ℚ :=
  let yTrueVal := labelFirst target
  let yPredVal := prediction.getD 0 0
  if outputActivation = "sigmoid" ∧
      (cfgLoss = "binaryCrossentropy" ∨ tcLoss = "binaryCrossentropy") then
    (List.replicate numOut (0 : ℚ)).set 0 (yPredVal - yTrueVal)
  else
    let actDer := activationDerivative M outputActivation zLast
    (List.range numOut).map fun ii =>
      (match target with
        | .vec ys => prediction.getD ii 0 - ys.getD ii 0
        | .scalar _ => yPredVal - yTrueVal) * actDer.getD ii 0

/-- One step of the hidden-layer backpropagation (lines 545-561): for hidden
index `li`, `deltas[li][k] = (sum over m of weights[li+1][m][k] *
deltas[li+1][m]) * activationDerivative(layers[li+1].activation,
layerZs[li])[k]`, for `k` ranging over the derivative vector's length. -/
def prevDelta (M : JsMath) (wNext : List (List ℚ)) (dNext : List ℚ)
    (act : String) (z : List ℚ) : List ℚ :=
  let der := activationDerivative M act z
  (List.range der.length).map fun k =>
    ((List.range wNext.length).foldl
      (fun s m => s + (wNext.getD m []).getD k 0 * dNext.getD m 0) 0) * der.getD k 0

/-- The full per-sample delta list, one vector per weight layer (lines
516-561), built backward from the output delta.  `infos` lists, for hidden
index `li = 0 .. lastIdx-1` in order, the triple `(weights[li+1],
layers[li+1].activation, layerZs[li])`. -/
def deltasList (M : JsMath) :
    List (List (List ℚ) × String × List ℚ) → List ℚ → List (List ℚ)
  | [], dLast => [dLast]
  | (wNext, act, z) :: rest, dLast =>
    let ds := deltasList M rest dLast
    prevDelta M wNext (ds.getD 0 []) act z :: ds

/-- The per-sample weight-gradient contribution (lines 563-573): for weight
layer `gi`, row `r`, column `c`, the value `deltas[gi][r] * aPrev[c]`, where
`aPrev` is the raw input (`cache.layerInputs[0]`) for `gi = 0` and
`cache.layerActivations[gi-1]` otherwise.  The batch accumulators are
zero-initialized, so one sample's contribution is exactly this product. -/
def sampleGradW (weights : List (List (List ℚ))) (deltas : List (List ℚ))
    (layerInputs layerActivations : List (List ℚ)) : List (List (List ℚ)) :=
  (List.range weights.length).map fun gi =>
    let aPrev := if gi = 0 then layerInputs.getD 0 [] else layerActivations.getD (gi - 1) []
    (List.range (weights.getD gi []).length).map fun r =>
      (List.range ((weights.getD gi []).getD r []).length).map fun c =>
        (deltas.getD gi []).getD r 0 * aPrev.getD c 0

/-- The per-sample bias-gradient contribution (line 571):
`gradB[gi][r] += deltas[gi][r]`. -/
def sampleGradB (weights : List (List (List ℚ))) (deltas : List (List ℚ)) :
    List (List ℚ) :=
  (List.range weights.length).map fun gi =>
    (List.range (weights.getD gi []).length).map fun r =>
      (deltas.getD gi []).getD r 0

/-- C2: during training, whenever the output layer's activation is sigmoid
and the configured loss is binaryCrossentropy (whether supplied in the
`train` call's config or in the network's `trainingConfig`), the output
delta for a single-unit output layer is exactly
`[prediction[0] - target[0]]` — in particular it does not depend on the
cached pre-activation `zLast`, which is universally quantified here, so it
is NOT the generic chain-rule product with the sigmoid derivative. -/
theorem outputDelta_bce_sigmoid (M : JsMath) (cfgLoss tcLoss : String)
    (prediction zLast : List ℚ) (target : Label)
    (hbce : cfgLoss = "binaryCrossentropy" ∨ tcLoss = "binaryCrossentropy") :
    outputDelta M "sigmoid" cfgLoss tcLoss 1 prediction zLast target =
      [prediction.getD 0 0 - labelFirst target] := by
  unfold outputDelta
  rw [if_pos ⟨rfl, hbce⟩]
  rfl

/-- Witness for C2 at a concrete input: output activation sigmoid, loss
binaryCrossentropy, prediction 3/4, target 1, arbitrary cached z. -/
theorem outputDelta_bce_sigmoid_witness :
    outputDelta M0 "sigmoid" "binaryCrossentropy" "meanSquaredError" 1
      [(3 / 4 : ℚ)] [(2 : ℚ)] (Label.scalar 1) = [(3 / 4 : ℚ) - 1] :=
  outputDelta_bce_sigmoid M0 "binaryCrossentropy" "meanSquaredError"
    [(3 / 4 : ℚ)] [(2 : ℚ)] (Label.scalar 1) (Or.inl rfl)

/-- Helper: entries past slot 0 of the simplified-branch delta are 0. -/
theorem replicate_set_getD (numOut : ℕ) (v : ℚ) (r : ℕ) (hr : 1 ≤ r) :
    ((List.replicate numOut (0 : ℚ)).set 0 v).getD r 0 = 0 := by
  rw [List.getD_eq_getElem?_getD, List.getElem?_set_ne (by omega)]
  by_cases h : r < numOut
  · simp [List.getElem?_replicate, h]
  · simp [List.getElem?_replicate, h]

/-- C10: when the output layer uses sigmoid with more than one unit and the
loss is binaryCrossentropy, the simplified branch writes
`prediction[0] - target[0]` into output unit 0 only: every other output
unit's delta is 0 for every sample, so the per-sample gradient contribution
to every weight and bias feeding those units (rows `r ≥ 1` of the last
weight layer) is 0 — hence the batch-accumulated gradient from the output
layer is 0 for them on every batch. -/
theorem outputDelta_bce_sigmoid_other_units_zero (M : JsMath)
    (cfgLoss tcLoss : String) (numOut : ℕ) (prediction zLast : List ℚ)
    (target : Label) (weights : List (List (List ℚ))) (deltas : List (List ℚ))
    (layerInputs layerActivations : List (List ℚ)) (r c : ℕ)
    (hbce : cfgLoss = "binaryCrossentropy" ∨ tcLoss = "binaryCrossentropy")
    (hr : 1 ≤ r)
    (hlast : deltas.getD (weights.length - 1) [] =
      outputDelta M "sigmoid" cfgLoss tcLoss numOut prediction zLast target) :
    (deltas.getD (weights.length - 1) []).getD r 0 = 0 ∧
    (((sampleGradW weights deltas layerInputs layerActivations).getD
        (weights.length - 1) []).getD r []).getD c 0 = 0 ∧
    ((sampleGradB weights deltas).getD (weights.length - 1) []).getD r 0 = 0 := by
  have hdelta : (deltas.getD (weights.length - 1) []).getD r 0 = 0 := by
    rw [hlast]
    unfold outputDelta
    rw [if_pos ⟨rfl, hbce⟩]
    exact replicate_set_getD numOut _ r hr
  refine ⟨hdelta, ?_, ?_⟩
  · unfold sampleGradW
    rw [rangeMap_getD]
    by_cases hgi : weights.length - 1 < weights.length
    · rw [if_pos hgi, rangeMap_getD]
      by_cases hrr : r < (weights.getD (weights.length - 1) []).length
      · rw [if_pos hrr, rangeMap_getD]
        by_cases hc : c < ((weights.getD (weights.length - 1) []).getD r []).length
        · rw [if_pos hc, hdelta, zero_mul]
        · rw [if_neg hc]
      · rw [if_neg hrr]
        rfl
    · rw [if_neg hgi]
      rfl
  · unfold sampleGradB
    rw [rangeMap_getD]
    by_cases hgi : weights.length - 1 < weights.length
    · rw [if_pos hgi, rangeMap_getD]
      by_cases hrr : r < (weights.getD (weights.length - 1) []).length
      · rw [if_pos hrr]
        exact hdelta
      · rw [if_neg hrr]
    · rw [if_neg hgi]
      rfl

/-- A concrete single weight layer with a 2-unit output, used by the C10
witness. -/
def w10 : List (List (List ℚ)) := [[[1], [1]]]

/-- The concrete output delta of the C10 witness: 2-unit sigmoid output,
loss binaryCrossentropy, prediction [3/4, 1/4], target 1. -/
def delta10 : List ℚ :=
  outputDelta M0 "sigmoid" "binaryCrossentropy" "meanSquaredError" 2
    [(3 / 4 : ℚ), (1 / 4 : ℚ)] [(1 : ℚ), (2 : ℚ)] (Label.scalar 1)

/-- Witness for C10 at a concrete input: a single weight layer with a
2-unit sigmoid output, loss binaryCrossentropy, row r = 1, column c = 0. -/
theorem outputDelta_bce_sigmoid_other_units_zero_witness :
    ([delta10].getD (w10.length - 1) []).getD 1 0 = 0 ∧
    (((sampleGradW w10 [delta10] [[(1 : ℚ)]] [[(1 : ℚ)]]).getD
        (w10.length - 1) []).getD 1 []).getD 0 0 = 0 ∧
    ((sampleGradB w10 [delta10]).getD (w10.length - 1) []).getD 1 0 = 0 :=
  outputDelta_bce_sigmoid_other_units_zero M0 "binaryCrossentropy"
    "meanSquaredError" 2 [(3 / 4 : ℚ), (1 / 4 : ℚ)] [(1 : ℚ), (2 : ℚ)]
    (Label.scalar 1) w10 [delta10] [[(1 : ℚ)]] [[(1 : ℚ)]] 1 0
    (Or.inl rfl) (by decide) rfl

/-! ### The Adam optimizer update (C4) -/

/-- The Adam moment buffers and shared step counter (`this.optimizerState`,
lines 252-283). -/
structure OptimizerState where
  t : ℕ
  mW : List (List (List ℚ))
  vW : List (List (List ℚ))
  mB : List (List ℚ)
  vB : List (List ℚ)
  deriving DecidableEq

/-- The method `initializeOptimizerState` (lines 253-283): zero moment
buffers shaped exactly like the weights/biases, `t = 0`. -/
def initOptimizerState (weights : List (List (List ℚ))) : OptimizerState :=
  { t := 0
    mW := weights.map fun layerW => layerW.map fun row => row.map fun _ => 0
    vW := weights.map fun layerW => layerW.map fun row => row.map fun _ => 0
    mB := weights.map fun layerW => layerW.map fun _ => 0
    vB := weights.map fun layerW => layerW.map fun _ => 0 }

/-- The JavaScript expression `(biasCorr1 || 1e-12)` (line 296): `||`
returns its right operand exactly when the left operand is falsy, i.e. (in
the rational embedding) equal to 0.  Note this is NOT
`max(biasCorr1, 1e-12)`: a nonzero value smaller than 1e-12 is kept
as-is. -/
def orFallback (x fb : ℚ) : ℚ := if x = 0 then fb else x

/-- The method `applyAdamUpdate` (lines 286-318), functionally: given the
current weights/biases, the (possibly absent, lazily created) optimizer
state, the batch-accumulated gradients and the hyperparameters, return the
updated weights, biases and optimizer state.  `t` is incremented once at the
top (line 292); each weight element and each bias element is then updated
with the bias-corrected learning rate `lrT` computed from that single
`t`. -/
def applyAdamUpdate (M : JsMath) (weights : List (List (List ℚ)))
    (biases : List (List ℚ)) (st? : Option OptimizerState)
    (gradWeights : List (List (List ℚ))) (gradBiases : List (List ℚ))
    (learningRate invBatch beta1 beta2 epsilon : ℚ) :
    List (List (List ℚ)) × List (List ℚ) × OptimizerState :=
  let st := match st? with
    | none => initOptimizerState weights
    | some s => s
  let t := st.t + 1
  let biasCorr1 := 1 - beta1 ^ t
  let biasCorr2 := 1 - beta2 ^ t
  let lrT := learningRate * M.sqrt biasCorr2 / orFallback biasCorr1 (1 / 10 ^ 12)
  let gW := fun wi r c => ((gradWeights.getD wi []).getD r []).getD c 0 * invBatch
  let mW' := fun wi r c =>
    beta1 * (((st.mW.getD wi []).getD r []).getD c 0) + (1 - beta1) * gW wi r c
  let vW' := fun wi r c =>
    beta2 * (((st.vW.getD wi []).getD r []).getD c 0) +
      (1 - beta2) * (gW wi r c * gW wi r c)
  let gB := fun wi r => ((gradBiases.getD wi []).getD r 0) * invBatch
  let mB' := fun wi r => beta1 * ((st.mB.getD wi []).getD r 0) + (1 - beta1) * gB wi r
  let vB' := fun wi r =>
    beta2 * ((st.vB.getD wi []).getD r 0) + (1 - beta2) * (gB wi r * gB wi r)
  let newWeights := (List.range weights.length).map fun wi =>
    (List.range (weights.getD wi []).length).map fun r =>
      (List.range ((weights.getD wi []).getD r []).length).map fun c =>
        ((weights.getD wi []).getD r []).getD c 0 -
          lrT * (mW' wi r c / (M.sqrt (vW' wi r c) + epsilon))
  let newMW := (List.range weights.length).map fun wi =>
    (List.range (weights.getD wi []).length).map fun r =>
      (List.range ((weights.getD wi []).getD r []).length).map fun c => mW' wi r c
  let newVW := (List.range weights.length).map fun wi =>
    (List.range (weights.getD wi []).length).map fun r =>
      (List.range ((weights.getD wi []).getD r []).length).map fun c => vW' wi r c
  let newBiases := (List.range weights.length).map fun wi =>
    (List.range (weights.getD wi []).length).map fun r =>
      (biases.getD wi []).getD r 0 - lrT * (mB' wi r / (M.sqrt (vB' wi r) + epsilon))
  let newMB := (List.range weights.length).map fun wi =>
    (List.range (weights.getD wi []).length).map fun r => mB' wi r
  let newVB := (List.range weights.length).map fun wi =>
    (List.range (weights.getD wi []).length).map fun r => vB' wi r
  (newWeights, newBiases,
    { t := t, mW := newMW, vW := newVW, mB := newMB, vB := newVB })

/-- The Adam update exactly as the claim words it (a second definition,
following the specification's text, for comparison with `applyAdamUpdate`):
identical except that the learning-rate denominator is
`max(biasCorr1, 1e-12)` instead of the source's `(biasCorr1 || 1e-12)`. -/
def adamUpdateClaim (M : JsMath) (weights : List (List (List ℚ)))
    (biases : List (List ℚ)) (st? : Option OptimizerState)
    (gradWeights : List (List (List ℚ))) (gradBiases : List (List ℚ))
    (learningRate invBatch beta1 beta2 epsilon : ℚ) :
    List (List (List ℚ)) × List (List ℚ) × OptimizerState :=
  let st := match st? with
    | none => initOptimizerState weights
    | some s => s
  let t := st.t + 1
  let biasCorr1 := 1 - beta1 ^ t
  let biasCorr2 := 1 - beta2 ^ t
  let lrT := learningRate * M.sqrt biasCorr2 / max biasCorr1 (1 / 10 ^ 12)
  let gW := fun wi r c => ((gradWeights.getD wi []).getD r []).getD c 0 * invBatch
  let mW' := fun wi r c =>
    beta1 * (((st.mW.getD wi []).getD r []).getD c 0) + (1 - beta1) * gW wi r c
  let vW' := fun wi r c =>
    beta2 * (((st.vW.getD wi []).getD r []).getD c 0) +
      (1 - beta2) * (gW wi r c * gW wi r c)
  let gB := fun wi r => ((gradBiases.getD wi []).getD r 0) * invBatch
  let mB' := fun wi r => beta1 * ((st.mB.getD wi []).getD r 0) + (1 - beta1) * gB wi r
  let vB' := fun wi r =>
    beta2 * ((st.vB.getD wi []).getD r 0) + (1 - beta2) * (gB wi r * gB wi r)
  let newWeights := (List.range weights.length).map fun wi =>
    (List.range (weights.getD wi []).length).map fun r =>
      (List.range ((weights.getD wi []).getD r []).length).map fun c =>
        ((weights.getD wi []).getD r []).getD c 0 -
          lrT * (mW' wi r c / (M.sqrt (vW' wi r c) + epsilon))
  let newMW := (List.range weights.length).map fun wi =>
    (List.range (weights.getD wi []).length).map fun r =>
      (List.range ((weights.getD wi []).getD r []).length).map fun c => mW' wi r c
  let newVW := (List.range weights.length).map fun wi =>
    (List.range (weights.getD wi []).length).map fun r =>
      (List.range ((weights.getD wi []).getD r []).length).map fun c => vW' wi r c
  let newBiases := (List.range weights.length).map fun wi =>
    (List.range (weights.getD wi []).length).map fun r =>
      (biases.getD wi []).getD r 0 - lrT * (mB' wi r / (M.sqrt (vB' wi r) + epsilon))
  let newMB := (List.range weights.length).map fun wi =>
    (List.range (weights.getD wi []).length).map fun r => mB' wi r
  let newVB := (List.range weights.length).map fun wi =>
    (List.range (weights.getD wi []).length).map fun r => vB' wi r
  (newWeights, newBiases,
    { t := t, mW := newMW, vW := newVW, mB := newMB, vB := newVB })

/-- C4 counterexample: the claim's rule with `lr_t = learningRate *
sqrt(biasCorr2) / max(biasCorr1, 1e-12)` differs from the source, which
computes `(biasCorr1 || 1e-12)`.  With `beta1 = 1 - 1e-13` (so `biasCorr1 =
1e-13`, nonzero but below 1e-12), a single zero weight, gradient 1, learning
rate 1, `invBatch = 1`, `beta2 = epsilon = 0` and the identity
interpretation of `sqrt`, the source divides by 1e-13 and yields weight
`-1`, while the claim's formula divides by 1e-12 and yields `-1/10`. -/
theorem applyAdamUpdate_differs_from_max_rule :
    (applyAdamUpdate M0 [[[0]]] [[0]] none [[[1]]] [[0]] 1 1
        (1 - 1 / 10 ^ 13) 0 0).1 = [[[(-1 : ℚ)]]] ∧
    (adamUpdateClaim M0 [[[0]]] [[0]] none [[[1]]] [[0]] 1 1
        (1 - 1 / 10 ^ 13) 0 0).1 = [[[(-1 / 10 : ℚ)]]] ∧
    (applyAdamUpdate M0 [[[0]]] [[0]] none [[[1]]] [[0]] 1 1
        (1 - 1 / 10 ^ 13) 0 0).1 ≠
      (adamUpdateClaim M0 [[[0]]] [[0]] none [[[1]]] [[0]] 1 1
        (1 - 1 / 10 ^ 13) 0 0).1 := by
  refine ⟨?_, ?_, ?_⟩
  · norm_num [applyAdamUpdate, initOptimizerState, orFallback, M0, List.range_succ]
  · norm_num [adamUpdateClaim, initOptimizerState, M0, List.range_succ]
  · intro h
    have h1 : (applyAdamUpdate M0 [[[0]]] [[0]] none [[[1]]] [[0]] 1 1
        (1 - 1 / 10 ^ 13) 0 0).1 = [[[(-1 : ℚ)]]] := by
      norm_num [applyAdamUpdate, initOptimizerState, orFallback, M0, List.range_succ]
    have h2 : (adamUpdateClaim M0 [[[0]]] [[0]] none [[[1]]] [[0]] 1 1
        (1 - 1 / 10 ^ 13) 0 0).1 = [[[(-1 / 10 : ℚ)]]] := by
      norm_num [adamUpdateClaim, initOptimizerState, M0, List.range_succ]
    rw [h1, h2] at h
    norm_num at h

/-- C4 amended (the `max` in the claim's `lr_t` replaced by the source's
JS-`||` semantics, everything else as claimed): every invocation increments
the shared step counter `t` exactly once — once per batch, not once per
parameter — and updates every weight and bias element independently per the
rule `biasCorr1 = 1 - beta1^t`, `biasCorr2 = 1 - beta2^t`, `lr_t =
learningRate * sqrt(biasCorr2) / (biasCorr1 if biasCorr1 != 0 else 1e-12)`,
`m = beta1*m + (1-beta1)*g`, `v = beta2*v + (1-beta2)*g^2`, `param -= lr_t *
m / (sqrt(v) + epsilon)`, with `g` the accumulated gradient scaled by
`invBatch`. -/
theorem applyAdamUpdate_rule (M : JsMath) (weights : List (List (List ℚ)))
    (biases : List (List ℚ)) (st? : Option OptimizerState)
    (gradWeights : List (List (List ℚ))) (gradBiases : List (List ℚ))
    (learningRate invBatch beta1 beta2 epsilon : ℚ) (wi r c : ℕ)
    (hwi : wi < weights.length) (hr : r < (weights.getD wi []).length)
    (hc : c < ((weights.getD wi []).getD r []).length) :
    let st := (match st? with
      | none => initOptimizerState weights
      | some s => s)
    let t := st.t + 1
    let lrT := learningRate * M.sqrt (1 - beta2 ^ t) /
      (if (1 : ℚ) - beta1 ^ t = 0 then 1 / 10 ^ 12 else 1 - beta1 ^ t)
    let g := ((gradWeights.getD wi []).getD r []).getD c 0 * invBatch
    let m := beta1 * (((st.mW.getD wi []).getD r []).getD c 0) + (1 - beta1) * g
    let v := beta2 * (((st.vW.getD wi []).getD r []).getD c 0) + (1 - beta2) * (g * g)
    let gb := ((gradBiases.getD wi []).getD r 0) * invBatch
    let mb := beta1 * ((st.mB.getD wi []).getD r 0) + (1 - beta1) * gb
    let vb := beta2 * ((st.vB.getD wi []).getD r 0) + (1 - beta2) * (gb * gb)
    let result := applyAdamUpdate M weights biases st? gradWeights gradBiases
      learningRate invBatch beta1 beta2 epsilon
    result.2.2.t = st.t + 1 ∧
    ((result.1.getD wi []).getD r []).getD c 0 =
      ((weights.getD wi []).getD r []).getD c 0 - lrT * (m / (M.sqrt v + epsilon)) ∧
    ((result.2.2.mW.getD wi []).getD r []).getD c 0 = m ∧
    ((result.2.2.vW.getD wi []).getD r []).getD c 0 = v ∧
    ((result.2.1.getD wi []).getD r 0) =
      (biases.getD wi []).getD r 0 - lrT * (mb / (M.sqrt vb + epsilon)) ∧
    ((result.2.2.mB.getD wi []).getD r 0) = mb ∧
    ((result.2.2.vB.getD wi []).getD r 0) = vb := by
  intro st t lrT g m v gb mb vb result
  have hW : ∀ f : ℕ → ℕ → ℕ → ℚ,
      ((((List.range weights.length).map fun wi2 =>
        (List.range (weights.getD wi2 []).length).map fun r2 =>
          (List.range ((weights.getD wi2 []).getD r2 []).length).map fun c2 =>
            f wi2 r2 c2).getD wi []).getD r []).getD c 0 = f wi r c := by
    intro f
    rw [rangeMap_getD, if_pos hwi, rangeMap_getD, if_pos hr, rangeMap_getD, if_pos hc]
  have hB : ∀ f : ℕ → ℕ → ℚ,
      ((((List.range weights.length).map fun wi2 =>
        (List.range (weights.getD wi2 []).length).map fun r2 =>
          f wi2 r2).getD wi []).getD r 0) = f wi r := by
    intro f
    rw [rangeMap_getD, if_pos hwi, rangeMap_getD, if_pos hr]
  refine ⟨rfl, ?_, ?_, ?_, ?_, ?_, ?_⟩
  · exact hW _
  · exact hW _
  · exact hW _
  · exact hB _
  · exact hB _
  · exact hB _

/-- Witness for C4's amended rule at a concrete input: one weight `5`, one
bias `7`, fresh optimizer state, gradients `3` and `2`, indices (0,0,0). -/
theorem applyAdamUpdate_rule_witness :
    let st := (match (none : Option OptimizerState) with
      | none => initOptimizerState [[[(5 : ℚ)]]]
      | some s => s)
    let t := st.t + 1
    let lrT := (1 : ℚ) * M0.sqrt (1 - (1 / 2 : ℚ) ^ t) /
      (if (1 : ℚ) - (1 / 3 : ℚ) ^ t = 0 then 1 / 10 ^ 12 else 1 - (1 / 3 : ℚ) ^ t)
    let g := ((([[[(3 : ℚ)]]] : List (List (List ℚ))).getD 0 []).getD 0 []).getD 0 0 * (1 : ℚ)
    let m := (1 / 3 : ℚ) * (((st.mW.getD 0 []).getD 0 []).getD 0 0) + (1 - 1 / 3) * g
    let v := (1 / 2 : ℚ) * (((st.vW.getD 0 []).getD 0 []).getD 0 0) + (1 - 1 / 2) * (g * g)
    let gb := ((([[(2 : ℚ)]] : List (List ℚ)).getD 0 []).getD 0 0) * (1 : ℚ)
    let mb := (1 / 3 : ℚ) * ((st.mB.getD 0 []).getD 0 0) + (1 - 1 / 3) * gb
    let vb := (1 / 2 : ℚ) * ((st.vB.getD 0 []).getD 0 0) + (1 - 1 / 2) * (gb * gb)
    let result := applyAdamUpdate M0 [[[(5 : ℚ)]]] [[(7 : ℚ)]] none [[[(3 : ℚ)]]]
      [[(2 : ℚ)]] 1 1 (1 / 3) (1 / 2) (1 / 100)
    result.2.2.t = st.t + 1 ∧
    ((result.1.getD 0 []).getD 0 []).getD 0 0 =
      ((([[[(5 : ℚ)]]] : List (List (List ℚ))).getD 0 []).getD 0 []).getD 0 0 -
        lrT * (m / (M0.sqrt v + 1 / 100)) ∧
    ((result.2.2.mW.getD 0 []).getD 0 []).getD 0 0 = m ∧
    ((result.2.2.vW.getD 0 []).getD 0 []).getD 0 0 = v ∧
    ((result.2.1.getD 0 []).getD 0 0) =
      (([[(7 : ℚ)]] : List (List ℚ)).getD 0 []).getD 0 0 -
        lrT * (mb / (M0.sqrt vb + 1 / 100)) ∧
    ((result.2.2.mB.getD 0 []).getD 0 0) = mb ∧
    ((result.2.2.vB.getD 0 []).getD 0 0) = vb :=
  applyAdamUpdate_rule M0 [[[(5 : ℚ)]]] [[(7 : ℚ)]] none [[[(3 : ℚ)]]] [[(2 : ℚ)]]
    1 1 (1 / 3) (1 / 2) (1 / 100) 0 0 0 (by decide) (by decide) (by decide)

/-! ### The epoch loop: early stopping, history and the callback (C3, C7) -/

/-- The comparison `metricLoss < bestEarlyStoppingLoss` (line 624), where
`bestEarlyStoppingLoss` starts at `Infinity` (line 451), modelled as
`none`. -/
def ltBest (m : ℚ) : Option ℚ → Bool
  | none => true
  | some b => decide (m < b)

/-- The `hasValidation` flag (line 603): both validation arrays supplied
(typed lists always pass the `Array.isArray` checks) and `xVal`
non-empty. -/
def hasValidationFlag (xVal : List (List ℚ)) : Bool := decide (0 < xVal.length)

/-- The monitored early-stopping metric (line 623): the epoch's validation
loss when validation is available, else the epoch's training loss. -/
def metricLoss (hasValidation : Bool) (valLoss avgLoss : ℚ) : ℚ :=
  if hasValidation then valLoss else avgLoss

/-- One `onEpochEnd` invocation when a callback is supplied, none otherwise
(the `if (onEpochEnd)` guard of line 637). -/
def cbInc : Bool → ℕ
  | true => 1
  | false => 0

/-- Control-flow skeleton of the tail of each `train` epoch (lines 616-648),
with the per-epoch monitored losses supplied as a list (abstracting the
numeric loss computation, which these claims do not constrain).  Each epoch
first appends one record to the history (lines 616-619); then, when
`earlyStopping` is set, an improving metric (`metricLoss <
bestEarlyStoppingLoss`, strict) becomes the new best and resets the patience
counter to 0, a non-improving metric increments the counter, and once the
counter reaches `patience` the epoch loop breaks immediately (line 631) —
BEFORE the `onEpochEnd` invocation of lines 637-645, which every
non-breaking epoch reaches when a callback is supplied.  Returns (history
records appended, callback invocations, whether the early-stop break
fired). -/
def epochLoop (earlyStopping hasCallback : Bool) (patience : ℤ) :
    List ℚ → Option ℚ → ℤ → ℕ × ℕ × Bool
  | [], _, _ => (0, 0, false)
  | m :: rest, best, counter =>
    if earlyStopping then
      if ltBest m best then
        let r := epochLoop earlyStopping hasCallback patience rest (some m) 0
        (r.1 + 1, r.2.1 + cbInc hasCallback, r.2.2)
      else if patience ≤ counter + 1 then (1, 0, true)
      else
        let r := epochLoop earlyStopping hasCallback patience rest best (counter + 1)
        (r.1 + 1, r.2.1 + cbInc hasCallback, r.2.2)
    else
      let r := epochLoop earlyStopping hasCallback patience rest best counter
      (r.1 + 1, r.2.1 + cbInc hasCallback, r.2.2)

/-- Helper: the epoch loop never runs more epochs than it is given (the
`for (let epoch = 0; epoch < epochs; epoch++)` bound of line 454). -/
theorem epochLoop_records_le (es cb : Bool) (p : ℤ) (l : List ℚ)
    (b : Option ℚ) (c : ℤ) : (epochLoop es cb p l b c).1 ≤ l.length := by
  induction l generalizing b c with
  | nil => simp [epochLoop]
  | cons m rest ih =>
    have h1 := ih (some m) 0
    have h2 := ih b (c + 1)
    have h3 := ih b c
    simp only [epochLoop, List.length_cons]
    split_ifs <;> dsimp only <;> omega

/-- C3: with earlyStopping enabled, train monitors valLoss when a non-empty
validation set is supplied and the epoch training loss otherwise; every
epoch whose monitored loss is not strictly below the best seen increments
the patience counter, any improvement resets it to 0, and the loop stops
entirely once the counter reaches patience.  In particular, for the
monitored loss sequence [0.5, 0.4, 0.45, 0.46, 0.47] with patience = 2,
exactly 4 epochs run (the break fires on the 4th) regardless of whether a
callback is supplied, and in general no more epochs run than were
requested. -/
theorem train_early_stopping_behavior :
    (∀ (xVal : List (List ℚ)) (vl al : ℚ),
      metricLoss (hasValidationFlag xVal) vl al =
        if 0 < xVal.length then vl else al) ∧
    (∀ cb : Bool,
      (epochLoop true cb 2 [(1 / 2 : ℚ), 2 / 5, 9 / 20, 23 / 50, 47 / 100] none 0).1 = 4 ∧
      (epochLoop true cb 2 [(1 / 2 : ℚ), 2 / 5, 9 / 20, 23 / 50, 47 / 100] none 0).2.2
        = true) ∧
    (∀ (es cb : Bool) (p : ℤ) (l : List ℚ) (b : Option ℚ) (c : ℤ),
      (epochLoop es cb p l b c).1 ≤ l.length) := by
  refine ⟨?_, ?_, ?_⟩
  · intro xVal vl al
    simp [metricLoss, hasValidationFlag]
  · intro cb
    cases cb <;> constructor <;> norm_num [epochLoop, ltBest]
  · exact epochLoop_records_le

/-- Witness for C3 at the claim's concrete input: the monitored loss
sequence [0.5, 0.4, 0.45, 0.46, 0.47] with patience = 2 runs exactly 4
epochs. -/
theorem train_early_stopping_behavior_witness :
    (epochLoop true true 2 [(1 / 2 : ℚ), 2 / 5, 9 / 20, 23 / 50, 47 / 100] none 0).1
      = 4 :=
  (train_early_stopping_behavior.2.1 true).1

/-- C7 counterexample: with earlyStopping enabled (patience 1), a supplied
callback and monitored losses [1/2, 3/5], the 2nd epoch's record is appended
to history but the break at line 631 skips its `onEpochEnd` call: 2 history
records, only 1 callback invocation — refuting the claim that the counts
are always equal. -/
theorem epochLoop_callback_miscount :
    epochLoop true true 1 [(1 / 2 : ℚ), (3 / 5 : ℚ)] none 0 = (2, 1, true) ∧
    (epochLoop true true 1 [(1 / 2 : ℚ), (3 / 5 : ℚ)] none 0).2.1 ≠
      (epochLoop true true 1 [(1 / 2 : ℚ), (3 / 5 : ℚ)] none 0).1 := by
  constructor <;> norm_num [epochLoop, ltBest, cbInc]

/-- C7 amended: with a supplied callback, `train` invokes `onEpochEnd` once
for every epoch whose record is appended to the history EXCEPT the epoch on
which early stopping triggers the stop (whose record is appended but whose
callback is skipped by the break at line 631, which precedes the callback at
line 637): the number of invocations equals the number of history records
when the break never fires, and the number of records minus one when it
does; equivalently, the record count always equals the invocation count plus
one exactly when the break fired. -/
theorem epochLoop_callback_count (es : Bool) (p : ℤ) (l : List ℚ)
    (b : Option ℚ) (c : ℤ) :
    (epochLoop es true p l b c).1 =
      (epochLoop es true p l b c).2.1 + (epochLoop es true p l b c).2.2.toNat := by
  induction l generalizing b c with
  | nil => simp [epochLoop]
  | cons m rest ih =>
    have h1 := ih (some m) 0
    have h2 := ih b (c + 1)
    have h3 := ih b c
    simp only [epochLoop]
    split_ifs <;> dsimp only [cbInc] <;> first
      | omega
      | simp

/-! ### The batch loop: termination and batch count (C9) -/

/-- The batch-loop header of `train` (line 467): `for (let i = 0; i <
xTrain.length; i += batchSize)`, with an explicit fuel bound making
potential non-termination observable: the result is the number of
iterations when the loop exits within `fuel` steps and `none` otherwise.
The index and step are integers, as in JS, so that a zero or negative
`batchSize` is representable. -/
def batchLoopIter (n bs : ℤ) : ℕ → ℤ → Option ℕ
  | 0, i => if i < n then none else some 0
  | fuel + 1, i =>
    if i < n then (batchLoopIter n bs fuel (i + bs)).map (fun k => k + 1)
    else some 0

/-- Helper: when the remaining distance is non-positive the loop exits with
count 0, and the ceiling formula agrees. -/
theorem ceil_count_nonpos (n i bs : ℤ) (hbs : 1 ≤ bs) (h : n ≤ i) :
    ((n - i + bs - 1) / bs).toNat = 0 := by
  have hnum : n - i + bs - 1 < bs := by omega
  have : (n - i + bs - 1) / bs < 1 := by
    rw [Int.ediv_lt_iff_lt_mul (by omega)]
    omega
  omega

/-- Helper: with `batchSize ≥ 1` the batch loop terminates within `n - i`
steps of fuel and counts exactly the ceiling `⌈(n-i)/bs⌉ =
(n - i + bs - 1) / bs` iterations. -/
theorem batchLoopIter_count (n bs : ℤ) (hbs : 1 ≤ bs) :
    ∀ (fuel : ℕ) (i : ℤ), n - i ≤ fuel →
      batchLoopIter n bs fuel i = some ((n - i + bs - 1) / bs).toNat := by
  intro fuel
  induction fuel with
  | zero =>
    intro i hf
    have hge : n ≤ i := by exact_mod_cast by omega
    simp only [batchLoopIter]
    rw [if_neg (by omega), ceil_count_nonpos n i bs hbs hge]
  | succ f ih =>
    intro i hf
    simp only [batchLoopIter]
    by_cases hi : i < n
    · rw [if_pos hi, ih (i + bs) (by omega)]
      simp only [Option.map_some']
      have harith : n - i + bs - 1 = (n - (i + bs) + bs - 1) + 1 * bs := by ring
      have hdiv : (n - i + bs - 1) / bs =
          (n - (i + bs) + bs - 1) / bs + 1 := by
        rw [harith, Int.add_mul_ediv_right _ _ (by omega : bs ≠ 0)]
      have hnonneg : 0 ≤ (n - (i + bs) + bs - 1) / bs := by
        apply Int.ediv_nonneg (by omega) (by omega)
      congr 1
      omega
    · rw [if_neg hi, ceil_count_nonpos n i bs hbs (by omega)]

/-- Helper: with a non-positive `batchSize` and a non-empty training set the
batch index never advances past the data, so the loop runs forever: no
amount of fuel finishes it. -/
theorem batchLoopIter_stuck (n bs : ℤ) (hn : 1 ≤ n) (hbs : bs ≤ 0) :
    ∀ (fuel : ℕ) (i : ℤ), i ≤ 0 → batchLoopIter n bs fuel i = none := by
  intro fuel
  induction fuel with
  | zero =>
    intro i hi
    simp only [batchLoopIter]
    rw [if_pos (by omega)]
  | succ f ih =>
    intro i hi
    simp only [batchLoopIter]
    rw [if_pos (by omega), ih (i + bs) (by omega)]
    rfl

/-- C9: for every non-empty training set of `n` samples and every
`batchSize ≥ 1`, the batch loop terminates after exactly
`⌈n/batchSize⌉ = (n + batchSize - 1) / batchSize` iterations (the last batch
possibly smaller), and the epoch loop runs at most `epochs` epochs; the
precondition `batchSize ≥ 1` is necessary: with `batchSize = 0` or negative
and a non-empty training set the loop index never advances past the data
and the loop does not terminate, for any amount of fuel. -/
theorem train_batch_loop_termination :
    (∀ (n bs : ℕ), 1 ≤ bs →
      batchLoopIter (n : ℤ) (bs : ℤ) n 0 = some ((n + bs - 1) / bs)) ∧
    (∀ (n bs : ℤ) (fuel : ℕ), 1 ≤ n → bs ≤ 0 →
      batchLoopIter n bs fuel 0 = none) ∧
    (∀ (es cb : Bool) (p : ℤ) (l : List ℚ) (b : Option ℚ) (c : ℤ),
      (epochLoop es cb p l b c).1 ≤ l.length) := by
  refine ⟨?_, ?_, epochLoop_records_le⟩
  · intro n bs hbs
    rw [batchLoopIter_count (n : ℤ) (bs : ℤ) (by exact_mod_cast hbs) n 0 (by omega)]
    congr 1
    have h1 : (n : ℤ) - 0 + (bs : ℤ) - 1 = ((n + bs - 1 : ℕ) : ℤ) := by
      omega
    rw [h1, ← Int.ofNat_ediv]
    exact Int.toNat_ofNat _
  · intro n bs fuel hn hbs
    exact batchLoopIter_stuck n bs hn hbs fuel 0 le_rfl

/-- Witness for C9 at concrete inputs: 5 samples with batchSize 2 terminate
in ceil(5/2) = 3 batches; batchSize 0 on 1 sample never terminates (shown
here for fuel 7). -/
theorem train_batch_loop_termination_witness :
    batchLoopIter (5 : ℤ) (2 : ℤ) 5 0 = some 3 ∧
    batchLoopIter (1 : ℤ) (0 : ℤ) 7 0 = none :=
  ⟨by simpa using train_batch_loop_termination.1 5 2 (by norm_num),
    train_batch_loop_termination.2.1 1 0 7 (by norm_num) (by norm_num)⟩

end MarijoAI
